import Mathlib

/-!
Verification of the disaster call-processing core (`src/app`): data model,
summary store compare-and-swap, LLM response parsing, transcript chunk
buffering/extraction triggering, the debounced summary coordinator, and the
WebSocket connection registry.  Each definition is a shallow embedding of the
corresponding Python source; machine timestamps are modelled as `Nat` ticks
passed explicitly, MongoDB documents as explicit optional values, and
asynchronous control flow as functional transition steps over explicit state.
-/

/-! ## Data model (src/app/models/schemas.py) -/

/-- `SeverityLevel` enum (schemas.py). -/
inductive SeverityLevel
  | unknown | low | moderate | high | critical
deriving DecidableEq, Repr

/-- `DisasterType` enum (schemas.py). -/
inductive DisasterType
  | unknown | fire | flood | earthquake | tornado | hurricane
  | explosion | chemical_spill | building_collapse | traffic_accident | other
deriving DecidableEq, Repr

/-- `SeverityLevel(value)`: Python enum lookup; raises `ValueError` on an
unrecognized value, modelled as `none`. -/
def SeverityLevel.ofString : String → Option SeverityLevel
  | "unknown" => some .unknown
  | "low" => some .low
  | "moderate" => some .moderate
  | "high" => some .high
  | "critical" => some .critical
  | _ => none

/-- `DisasterType(value)`: Python enum lookup; raises `ValueError` on an
unrecognized value, modelled as `none`. -/
def DisasterType.ofString : String → Option DisasterType
  | "unknown" => some .unknown
  | "fire" => some .fire
  | "flood" => some .flood
  | "earthquake" => some .earthquake
  | "tornado" => some .tornado
  | "hurricane" => some .hurricane
  | "explosion" => some .explosion
  | "chemical_spill" => some .chemical_spill
  | "building_collapse" => some .building_collapse
  | "traffic_accident" => some .traffic_accident
  | "other" => some .other
  | _ => none

/-- `TranscriptChunk` (schemas.py); `timestamp` is a `Nat` tick. -/
structure TranscriptChunk where
  text : String
  timestamp : Nat := 0
  chunk_index : Nat
  is_final : Bool := false
  audio_duration_ms : Option Nat := none
deriving DecidableEq, Repr

/-- `ExtractedInfo` (schemas.py); `confidence` is the float field, modelled
as a rational. -/
structure ExtractedInfo where
  location : Option String := none
  location_details : Option String := none
  disaster_type : DisasterType := .unknown
  severity : SeverityLevel := .unknown
  injuries_reported : Option Nat := none
  fatalities_reported : Option Nat := none
  people_trapped : Option Nat := none
  hazards : List String := []
  resources_needed : List String := []
  caller_condition : Option String := none
  additional_notes : Option String := none
  confidence : Rat := 0
  extracted_at : Nat := 0
deriving DecidableEq, Repr

/-- `PersonRecord` (schemas.py). -/
structure PersonRecord where
  person_id : String
  call_started_at : Nat := 0
  call_ended_at : Option Nat := none
  is_active : Bool := true
  transcript_chunks : List TranscriptChunk := []
  extracted_info : Option ExtractedInfo := none
  extraction_history : List ExtractedInfo := []
  phone_number : Option String := none
  callback_number : Option String := none
  updated_at : Nat := 0
deriving DecidableEq, Repr

/-- `AffectedArea` (schemas.py). -/
structure AffectedArea where
  location : String
  caller_count : Nat := 0
  max_severity : SeverityLevel := .unknown
  disaster_types : List DisasterType := []
deriving DecidableEq, Repr

/-- `DisasterSummary` (schemas.py). -/
structure DisasterSummary where
  summary_id : String := "current"
  version : Nat := 1
  total_callers : Nat := 0
  active_callers : Nat := 0
  total_injuries : Nat := 0
  total_fatalities : Nat := 0
  total_trapped : Nat := 0
  overall_severity : SeverityLevel := .unknown
  disaster_types : List DisasterType := []
  affected_areas : List AffectedArea := []
  all_hazards : List String := []
  resources_needed : List String := []
  narrative_summary : String := ""
  key_findings : List String := []
  updated_at : Nat := 0
deriving DecidableEq, Repr

/-! ## Summary store (src/app/db/repositories/summary.py) -/

/-- `OptimisticLockError` raised by `SummaryRepository.update` on a version
mismatch; carries the expected and the found stored version. -/
structure OptimisticLockError where
  expected : Nat
  found : Nat
deriving DecidableEq, Repr

/-- The single `summaries` document with `summary_id = "current"`;
`none` models an empty collection. -/
def SummaryStore : Type := Option DisasterSummary

/-- `SummaryRepository.update` (summary.py lines 42-101).  Mirrors the code:
resolve `expected_version` (defaulting to `summary.version - 1`), set
`summary.version = expected_version + 1` and stamp `updated_at`, then
`find_one_and_update` filtered on the expected version.  If no document
matched: raise `OptimisticLockError` when a document exists with a different
version (store unchanged), otherwise insert the new document.  Returns the
store after the call together with the normal return value or the raised
error. -/
def SummaryRepository.update (store : SummaryStore) (summary : DisasterSummary)
    (expected_version : Option Nat) (now : Nat) :
    SummaryStore × Except OptimisticLockError DisasterSummary :=
  let ev := expected_version.getD (summary.version - 1)
  let s2 : DisasterSummary := { summary with version := ev + 1, updated_at := now }
  match store with
  | some existing =>
      if existing.version = ev then
        (some s2, Except.ok s2)
      else
        (some existing, Except.error { expected := ev, found := existing.version })
  | none => (some s2, Except.ok s2)

/-- The document written by a successful compare-and-swap with expected
version `v` at time `now`. -/
def casDoc (summary : DisasterSummary) (v : Nat) (now : Nat) : DisasterSummary :=
  { summary with version := v + 1, updated_at := now }

/-! ## LLM client (src/app/services/llm/client.py)

`json.loads` is abstracted as a `loads` parameter returning the decoded
document restricted to the fields the code reads (`none` models a
`JSONDecodeError`); everything after decoding is embedded faithfully. -/

/-- Python `str.strip()` (Lean's `String.trim`): remove leading and trailing
whitespace.  Implemented over the character list so that it computes by
kernel reduction. -/
def pyStrip (s : String) : String :=
  String.mk
    (((s.data.dropWhile Char.isWhitespace).reverse.dropWhile
        Char.isWhitespace).reverse)

/-- Python `str.startswith` (Lean's `String.startsWith`), over the
character lists. -/
def strStarts (s pre : String) : Bool :=
  s.data.take pre.data.length == pre.data

/-- Python `str.split(ch)` over a character list. -/
def splitOnChar (c : Char) : List Char → List (List Char)
  | [] => [[]]
  | x :: xs =>
      match splitOnChar c xs with
      | [] => if x = c then [[], []] else [[x]]
      | y :: ys => if x = c then [] :: y :: ys else (x :: y) :: ys

/-- Python `sep.join(parts)`. -/
def joinSep (sep : String) : List String → String
  | [] => ""
  | t :: ts => ts.foldl (fun acc x => acc ++ sep ++ x) t

/-- The markdown-fence stripping inside `ClaudeClient._parse_json_response`
(client.py lines 108-119): strip the response; when it starts with a fence,
drop every line whose stripped form starts with a fence and rejoin the rest
with newlines. -/
def strip_code_fences (response : String) : String :=
  let text := pyStrip response
  if strStarts text "```" then
    let lines := (splitOnChar (Char.ofNat 10) text.data).map String.mk
    let kept := lines.filter (fun l => !(strStarts (pyStrip l) "```"))
    joinSep (String.mk [Char.ofNat 10]) kept
  else
    text

/-- The JSON object produced by decoding an extraction response, restricted
to the fields `ClaudeClient.extract_info` and `ExtractedInfo` consume; a
`none` field models an absent key.  Non-enum fields are modelled at the
types pydantic validation accepts. -/
structure RawExtraction where
  location : Option String := none
  location_details : Option String := none
  disaster_type : Option String := none
  severity : Option String := none
  injuries_reported : Option Nat := none
  fatalities_reported : Option Nat := none
  people_trapped : Option Nat := none
  hazards : Option (List String) := none
  resources_needed : Option (List String) := none
  caller_condition : Option String := none
  additional_notes : Option String := none
  confidence : Option Rat := none
deriving DecidableEq, Repr

/-- `ClaudeClient._parse_json_response`: strip fencing, then decode. -/
def parse_json_response (loads : String → Option RawExtraction)
    (response : String) : Option RawExtraction :=
  loads (strip_code_fences response)

/-- The degraded `ExtractedInfo` built in the `except` branch of
`ClaudeClient.extract_info`: default fields, `confidence = 0.0`, and
`additional_notes` holding the first 500 characters of the raw response. -/
def degradedInfo (response : String) (now : Nat) : ExtractedInfo :=
  { additional_notes := some ("Extraction failed: " ++ response.take 500),
    confidence := 0,
    extracted_at := now }

/-- Conversion of one optional enum-valued JSON field.  In the source,
`if data.get(key): data[key] = Enum(data[key])` raises `ValueError` on an
unrecognized value; an empty string is skipped by the truthiness test and
then rejected by pydantic validation (also a `ValueError`), and an absent
key takes the pydantic default — so the field succeeds exactly when it is
absent or its string is a recognized member. -/
def enumField {α : Type} (ofS : String → Option α) (dflt : α) :
    Option String → Option α
  | none => some dflt
  | some s => ofS s

/-- `ClaudeClient.extract_info` (client.py lines 121-160) after the provider
call returned `response`: parse, convert the two enum fields, build the
`ExtractedInfo`; both `json.JSONDecodeError` and `ValueError` (which pydantic
validation errors subclass) are caught and produce the degraded result.  The
`confidence` range test models pydantic's `ge=0, le=1` validation. -/
def extract_info (loads : String → Option RawExtraction) (response : String)
    (now : Nat) : ExtractedInfo :=
  match parse_json_response loads response with
  | none => degradedInfo response now
  | some d =>
      match enumField DisasterType.ofString DisasterType.unknown d.disaster_type with
      | none => degradedInfo response now
      | some dtv =>
          match enumField SeverityLevel.ofString SeverityLevel.unknown d.severity with
          | none => degradedInfo response now
          | some svv =>
              if 0 ≤ d.confidence.getD 0 ∧ d.confidence.getD 0 ≤ 1 then
                { location := d.location,
                  location_details := d.location_details,
                  disaster_type := dtv,
                  severity := svv,
                  injuries_reported := d.injuries_reported,
                  fatalities_reported := d.fatalities_reported,
                  people_trapped := d.people_trapped,
                  hazards := d.hazards.getD [],
                  resources_needed := d.resources_needed.getD [],
                  caller_condition := d.caller_condition,
                  additional_notes := d.additional_notes,
                  confidence := d.confidence.getD 0,
                  extracted_at := now }
              else degradedInfo response now
/-- One step of the totals accumulation in `ClaudeClient.generate_summary`:
`if info.<field>: total += info.<field>` — the Python truthiness test skips
both an absent value and a zero. -/
def truthyAdd (acc : Nat) (v : Option Nat) : Nat :=
  match v with
  | some n => if n ≠ 0 then acc + n else acc
  | none => acc

/-- The raw numeric totals (injuries, fatalities, trapped) accumulated over
the caller-report loop of `generate_summary` (client.py lines 168-196); only
persons with extracted info contribute. -/
def summaryTotals (persons : List PersonRecord) : Nat × Nat × Nat :=
  persons.foldl
    (fun acc p =>
      match p.extracted_info with
      | none => acc
      | some info =>
          (truthyAdd acc.1 info.injuries_reported,
           truthyAdd acc.2.1 info.fatalities_reported,
           truthyAdd acc.2.2 info.people_trapped))
    (0, 0, 0)

/-- One entry of the decoded `affected_areas` JSON array; `none` models an
absent key (`area["location"]` raises `KeyError` when absent, the other
keys are read with `.get` defaults). -/
structure AreaData where
  location : Option String := none
  caller_count : Option Nat := none
  max_severity : Option String := none
  disaster_types : Option (List String) := none
deriving DecidableEq, Repr

/-- The decoded summarization JSON, restricted to the keys
`generate_summary` reads; `none` models an absent key. -/
structure SummaryData where
  overall_severity : Option String := none
  narrative_summary : Option String := none
  key_findings : Option (List String) := none
  all_hazards : Option (List String) := none
  resources_needed : Option (List String) := none
  disaster_types : Option (List String) := none
  affected_areas : Option (List AreaData) := none
deriving DecidableEq, Repr

/-- Construction of one `AffectedArea` inside `generate_summary`'s
`DisasterSummary(...)` call; fails (raising `KeyError`/`ValueError`) when
`location` is absent or an enum value is unrecognized. -/
def buildArea (a : AreaData) : Option AffectedArea := do
  let loc ← a.location
  let ms ← SeverityLevel.ofString (a.max_severity.getD "unknown")
  let adts ← (a.disaster_types.getD []).mapM DisasterType.ofString
  pure { location := loc, caller_count := a.caller_count.getD 0,
         max_severity := ms, disaster_types := adts }

/-- The `DisasterSummary(...)` construction in the success branch of
`generate_summary` (client.py lines 229-262); fails when an enum value is
unrecognized or an area lacks `location`. -/
def buildSummary (current : DisasterSummary)
    (total_callers active_callers ti tf tt : Nat)
    (d : SummaryData) (now : Nat) : Option DisasterSummary := do
  let sev ← SeverityLevel.ofString (d.overall_severity.getD "unknown")
  let dts ← (d.disaster_types.getD []).mapM DisasterType.ofString
  let areas ← (d.affected_areas.getD []).mapM buildArea
  pure { summary_id := current.summary_id,
         version := current.version,
         total_callers := total_callers,
         active_callers := active_callers,
         total_injuries := ti,
         total_fatalities := tf,
         total_trapped := tt,
         overall_severity := sev,
         narrative_summary := d.narrative_summary.getD "",
         key_findings := d.key_findings.getD [],
         all_hazards := d.all_hazards.getD [],
         resources_needed := d.resources_needed.getD [],
         disaster_types := dts,
         affected_areas := areas,
         updated_at := now }

/-- The mutation of `current_summary` performed in the `except` branch of
`generate_summary` (client.py lines 272-280): exactly the five raw numeric
totals are refreshed; every other field is left as it was. -/
def refreshedSummary (persons : List PersonRecord) (current : DisasterSummary) :
    DisasterSummary :=
  { current with
    total_callers := persons.length,
    active_callers := persons.countP (fun p => p.is_active),
    total_injuries := (summaryTotals persons).1,
    total_fatalities := (summaryTotals persons).2.1,
    total_trapped := (summaryTotals persons).2.2 }

/-- `ClaudeClient.generate_summary` (client.py lines 162-280) after the
provider call, with the decoded JSON passed as `parsed` (`none` models a
`JSONDecodeError`).  With no caller reports it returns `current` untouched;
on a parse or construction failure it catches the error and returns the
current summary with only the raw totals refreshed; otherwise it returns the
newly built summary.  The function returns normally in every case. -/
def generate_summary (persons : List PersonRecord) (current : DisasterSummary)
    (parsed : Option SummaryData) (now : Nat) : DisasterSummary :=
  if persons.countP (fun p => p.extracted_info.isSome) = 0 then current
  else
    match parsed with
    | none => refreshedSummary persons current
    | some d =>
        match buildSummary current persons.length
            (persons.countP (fun p => p.is_active))
            (summaryTotals persons).1 (summaryTotals persons).2.1
            (summaryTotals persons).2.2 d now with
        | some s => s
        | none => refreshedSummary persons current

/-- Follows the spec's words, not the source, for comparison in claim C3
(spec §4.3: on parse failure "`summarize` **propagates** the failure to its
caller"): identical to `generate_summary` except that a parse or
construction failure is propagated as an error instead of being caught. -/
def summarize_specContract (persons : List PersonRecord)
    (current : DisasterSummary) (parsed : Option SummaryData) (now : Nat) :
    Except Unit DisasterSummary :=
  if persons.countP (fun p => p.extracted_info.isSome) = 0 then Except.ok current
  else
    match parsed with
    | none => Except.error ()
    | some d =>
        match buildSummary current persons.length
            (persons.countP (fun p => p.is_active))
            (summaryTotals persons).1 (summaryTotals persons).2.1
            (summaryTotals persons).2.2 d now with
        | some s => Except.ok s
        | none => Except.error ()

/-! ## Transcript chunk processing (src/app/core/call_processor.py) -/

/-- The `PersonRecord(person_id=person_id)` created by
`PersonRepository.get_or_create` when no record exists yet. -/
def PersonRecord.new (pid : String) (now : Nat) : PersonRecord :=
  { person_id := pid, call_started_at := now, updated_at := now }

/-- `PersonRepository.add_transcript_chunk` (person.py lines 43-58):
`$push` the chunk onto `transcript_chunks` and `$set` `updated_at`. -/
def add_transcript_chunk (record : PersonRecord) (chunk : TranscriptChunk)
    (now : Nat) : PersonRecord :=
  { record with
      transcript_chunks := record.transcript_chunks ++ [chunk],
      updated_at := now }

/-- Python `" ".join(texts)` as used by `CallProcessor._extract_and_update`
to combine all transcript text. -/
def spaceJoin : List String → String
  | [] => ""
  | t :: ts => ts.foldl (fun acc x => acc ++ " " ++ x) t

/-- The full transcript `_extract_and_update` builds from the person's
durable record: the space-join of every stored chunk's text, in stored
(arrival) order. -/
def fullTranscript (record : PersonRecord) : String :=
  spaceJoin (record.transcript_chunks.map (fun c => c.text))

/-- Observable outcome of handling one `transcript_chunk` message for one
person: the durable record afterwards, the connection's chunk buffer
afterwards (`none` when the caller has no registered connection), whether
extraction was triggered, and the transcript string handed to extraction
(`none` when extraction was not triggered or the accumulated text was
whitespace-only, in which case `_extract_and_update` returns early). -/
structure ChunkOutcome where
  record : PersonRecord
  buffer : Option (List TranscriptChunk)
  triggered : Bool
  transcriptSent : Option String
deriving DecidableEq, Repr

/-- `CallProcessor._process_transcript_chunk` (call_processor.py lines
62-99) combined with the transcript construction of `_extract_and_update`
(lines 101-120): ensure the record exists, append the chunk to the durable
record, append it to the connection's buffer when a connection is
registered, then trigger extraction when `chunk.is_final` or the buffer
(after the append) has reached `buffer_size`; on a trigger the buffer is
cleared and the transcript passed to extraction is the space-join of the
whole durable record. -/
def process_transcript_chunk (buffer_size : Nat) (record0 : Option PersonRecord)
    (pid : String) (conn : Option (List TranscriptChunk))
    (chunk : TranscriptChunk) (now : Nat) : ChunkOutcome :=
  let record :=
    match record0 with
    | some r => r
    | none => PersonRecord.new pid now
  let record := add_transcript_chunk record chunk now
  let buf2 := conn.map (fun b => b ++ [chunk])
  let should_process :=
    chunk.is_final || (buf2.isSome && decide (buffer_size ≤ (buf2.getD []).length))
  { record := record,
    buffer :=
      if should_process then buf2.map (fun _ => ([] : List TranscriptChunk))
      else buf2,
    triggered := should_process,
    transcriptSent :=
      if should_process then
        if pyStrip (fullTranscript record) = "" then none
        else some (fullTranscript record)
      else none }

/-- State threaded through a sequence of `transcript_chunk` messages from
one connected caller: the durable record, the connection buffer, and how
many extraction triggers have fired. -/
structure SeqState where
  record : PersonRecord
  buffer : List TranscriptChunk
  triggers : Nat
deriving DecidableEq, Repr

/-- One message of the sequence, processed through
`process_transcript_chunk` for a caller with a registered connection. -/
def seqStep (buffer_size : Nat) (pid : String) (now : Nat)
    (s : SeqState) (chunk : TranscriptChunk) : SeqState :=
  let r := process_transcript_chunk buffer_size (some s.record) pid
      (some s.buffer) chunk now
  { record := r.record,
    buffer := r.buffer.getD [],
    triggers := s.triggers + (if r.triggered then 1 else 0) }

/-- Sequential processing of a list of `transcript_chunk` messages (message
handling for one caller is strictly sequential). -/
def processSeq (buffer_size : Nat) (pid : String) (now : Nat)
    (s : SeqState) (chunks : List TranscriptChunk) : SeqState :=
  chunks.foldl (seqStep buffer_size pid now) s

/-! ## Summary coordinator (CallProcessor._schedule_summary_update)

`_schedule_summary_update` (call_processor.py lines 147-161) runs in the
calling task: under `_summary_lock` it checks `_pending_summary_update` and
returns when already set, else sets it; then `await asyncio.sleep(...)`
(this await is OUTSIDE the following `try`); then `try: await
self._update_summary()` with `finally:` clearing the flag under the lock.
The lock makes the check-and-set atomic, so each event below is one atomic
scheduler step of the cooperative event loop. -/

/-- Progress of the continuation that wins the debounce check: sleeping in
the debounce `asyncio.sleep` (before the `try` is entered), or running
`_update_summary` inside the `try` whose `finally` clears the flag. -/
inductive TaskPhase
  | sleeping
  | recomputing
deriving DecidableEq, Repr

/-- Coordinator state: the `_pending_summary_update` flag, the debounce
continuations currently alive, and how many recompute runs have started. -/
structure CoordState where
  pending : Bool
  tasks : List TaskPhase
  executions : Nat
deriving DecidableEq, Repr

/-- Initial coordinator state (flag clear, nothing scheduled). -/
def initCoord : CoordState := { pending := false, tasks := [], executions := 0 }

/-- Atomic scheduler events of the debounce protocol. -/
inductive CoordEvent
  | call
  | wake
  | finish
  | cancelSleep
  | cancelRecompute
deriving DecidableEq, Repr

/-- The first sleeping continuation moves on to recomputing (its debounce
sleep elapsed); `none` when no continuation is sleeping. -/
def wakeFirst : List TaskPhase → Option (List TaskPhase)
  | [] => none
  | TaskPhase.sleeping :: ts => some (TaskPhase.recomputing :: ts)
  | TaskPhase.recomputing :: ts =>
      (wakeFirst ts).map (fun r => TaskPhase.recomputing :: r)

/-- Remove the first continuation in the given phase; `none` when there is
no such continuation. -/
def removeFirst (p : TaskPhase) : List TaskPhase → Option (List TaskPhase)
  | [] => none
  | t :: ts =>
      if t = p then some ts
      else (removeFirst p ts).map (fun r => t :: r)

/-- One scheduler event applied to the coordinator state.
`call`: a task enters `_schedule_summary_update`; if the flag is set it
returns at once (no new timer), else it sets the flag and starts sleeping.
`wake`: a sleeping continuation's debounce sleep elapses and its recompute
starts.  `finish`: the running recompute returns and the `finally` clears
the flag.  `cancelSleep`: the task is cancelled during the debounce sleep —
`CancelledError` propagates before the `try` is entered, so the flag is NOT
cleared.  `cancelRecompute`: the task is cancelled inside `_update_summary`
— the `finally` still runs and clears the flag. -/
def coordStep (s : CoordState) : CoordEvent → CoordState
  | CoordEvent.call =>
      if s.pending then s
      else { s with pending := true, tasks := s.tasks ++ [TaskPhase.sleeping] }
  | CoordEvent.wake =>
      match wakeFirst s.tasks with
      | some ts => { s with tasks := ts, executions := s.executions + 1 }
      | none => s
  | CoordEvent.finish =>
      match removeFirst TaskPhase.recomputing s.tasks with
      | some ts => { pending := false, tasks := ts, executions := s.executions }
      | none => s
  | CoordEvent.cancelSleep =>
      match removeFirst TaskPhase.sleeping s.tasks with
      | some ts => { s with tasks := ts }
      | none => s
  | CoordEvent.cancelRecompute =>
      match removeFirst TaskPhase.recomputing s.tasks with
      | some ts => { pending := false, tasks := ts, executions := s.executions }
      | none => s

/-- Run a sequence of scheduler events. -/
def coordRun (s : CoordState) (es : List CoordEvent) : CoordState :=
  es.foldl coordStep s

/-- Number of recompute cycles currently in flight. -/
def inFlight (s : CoordState) : Nat :=
  s.tasks.countP (fun t => decide (t = TaskPhase.recomputing))

/-- Coordinator invariant: at most one debounce continuation is alive, and
a clear flag means no continuation is alive. -/
def CoordInv (s : CoordState) : Prop :=
  s.tasks.length ≤ 1 ∧ (s.pending = false → s.tasks = [])

/-! ## Connection registry (src/app/core/connection_manager.py)

Socket identities are `Nat`; whether a given socket's send or close raises
is an environment parameter `sendFails`.  Each operation returns the new
registry state together with the ordered list of its observable effects;
`lockAcquired`/`lockReleased` effects are emitted exactly where the source
enters and leaves `async with self._lock`. -/

/-- The `Connection` dataclass (connection_manager.py lines 15-23). -/
structure Connection where
  person_id : String
  socket : Nat
  connected_at : Nat := 0
  last_heartbeat : Nat := 0
  chunk_buffer : List TranscriptChunk := []
deriving DecidableEq, Repr

/-- Outbound messages, restricted to what the registry claims need. -/
inductive OutMessage
  | connection_ack (person_id : String) (status : String)
  | payload (tag : String)
deriving DecidableEq, Repr

/-- Observable effects of registry operations, in order of occurrence. -/
inductive WsEffect
  | accepted (socket : Nat)
  | lockAcquired
  | lockReleased
  | closed (socket : Nat) (code : Nat) (reason : String)
  | registered (pid : String) (socket : Nat)
  | sendAttempt (socket : Nat) (msg : OutMessage)
deriving DecidableEq, Repr

/-- The `_connections` dict: an insertion-ordered map from person id to
connection. -/
def ConnMap : Type := List (String × Connection)

/-- Python `d.get(pid)`. -/
def dictGet (pid : String) : ConnMap → Option Connection
  | [] => none
  | (k, v) :: rest => if k = pid then some v else dictGet pid rest

/-- Python `d[pid] = conn`: replace the entry in place, or append. -/
def dictSet (pid : String) (conn : Connection) : ConnMap → ConnMap
  | [] => [(pid, conn)]
  | (k, v) :: rest =>
      if k = pid then (k, conn) :: rest else (k, v) :: dictSet pid conn rest

/-- Python `del d[pid]` guarded by `if pid in d`. -/
def dictRemove (pid : String) : ConnMap → ConnMap
  | [] => []
  | (k, v) :: rest => if k = pid then rest else (k, v) :: dictRemove pid rest

/-- `ConnectionManager.send_to_person` (lines 84-100): look the connection
up, return `False` when absent, otherwise attempt the send; a raising send
is caught and yields `False`. -/
def send_to_person (m : ConnMap) (pid : String) (msg : OutMessage)
    (sendFails : Nat → Bool) : Bool × List WsEffect :=
  match dictGet pid m with
  | none => (false, [])
  | some c => (!(sendFails c.socket), [WsEffect.sendAttempt c.socket msg])

/-- `ConnectionManager.connect` (lines 33-67): accept the socket; under the
registry lock close any pre-existing connection for the person (code 1000,
reason "Replaced by new connection", close failures swallowed) and register
the new `Connection` (the dict assignment evicts the old entry); after
releasing the lock send the `connection_ack{person_id, status:"connected"}`
through `send_to_person`. -/
def connect (m : ConnMap) (pid : String) (sock : Nat) (now : Nat)
    (sendFails : Nat → Bool) : ConnMap × List WsEffect :=
  let closeEffects :=
    match dictGet pid m with
    | some old => [WsEffect.closed old.socket 1000 "Replaced by new connection"]
    | none => []
  let conn : Connection :=
    { person_id := pid, socket := sock, connected_at := now, last_heartbeat := now }
  let m2 := dictSet pid conn m
  let ack := send_to_person m2 pid (OutMessage.connection_ack pid "connected") sendFails
  (m2,
   [WsEffect.accepted sock, WsEffect.lockAcquired] ++ closeEffects
     ++ [WsEffect.registered pid sock, WsEffect.lockReleased] ++ ack.2)

/-- `ConnectionManager.disconnect` (lines 69-82): under the lock, remove
the entry when present; idempotent by construction of the guard. -/
def disconnect (m : ConnMap) (pid : String) : ConnMap × List WsEffect :=
  (dictRemove pid m, [WsEffect.lockAcquired, WsEffect.lockReleased])

/-- The `for person_id, conn in list(self._connections.items())` loop of
`ConnectionManager.broadcast`: every entry of the snapshot gets one send
attempt; a raising send is caught and not counted; the loop continues. -/
def broadcastLoop (msg : OutMessage) (sendFails : Nat → Bool) :
    List (String × Connection) → Nat × List WsEffect
  | [] => (0, [])
  | (_, c) :: rest =>
      let tail := broadcastLoop msg sendFails rest
      ((if sendFails c.socket then 0 else 1) + tail.1,
       WsEffect.sendAttempt c.socket msg :: tail.2)

/-- `ConnectionManager.broadcast` (lines 100-115): iterate a snapshot of
the connection map — `list(self._connections.items())` is copied WITHOUT
taking the registry lock (no `async with self._lock` appears in the
method; the copy contains no await, so it is atomic in the event loop) —
and return how many sends succeeded. -/
def broadcast (m : ConnMap) (msg : OutMessage) (sendFails : Nat → Bool) :
    Nat × List WsEffect :=
  broadcastLoop msg sendFails m

/-- A registry operation, for reasoning over arbitrary operation
sequences. -/
inductive RegistryOp
  | connect (pid : String) (sock : Nat) (now : Nat)
  | disconnect (pid : String)
deriving DecidableEq, Repr

/-- Apply one registry operation to the map (effects discarded). -/
def applyOp (m : ConnMap) : RegistryOp → ConnMap
  | RegistryOp.connect pid sock now => (connect m pid sock now (fun _ => false)).1
  | RegistryOp.disconnect pid => (disconnect m pid).1

/-- Apply a sequence of registry operations. -/
def applyOps (m : ConnMap) (ops : List RegistryOp) : ConnMap :=
  ops.foldl applyOp m

/-- At most one registered connection per person id: the keys of the map
are pairwise distinct. -/
def keysNodup (m : ConnMap) : Prop := (m.map Prod.fst).Nodup

/-! ## Claim theorems -/


/-- Claim C1 counterexample: with an empty store and expected version 5, the
update auto-creates the document at version 6, not at version 1 as the claim
states. -/
theorem C1_counterexample :
    (SummaryRepository.update none {} (some 5) 7).1
      = some { ({} : DisasterSummary) with version := 6, updated_at := 7 }
  ∧ ((6 : Nat) = 1 → False) := by
  exact ⟨rfl, by decide⟩

/-- Claim C1 (amended): a compare-and-swap update with expected version `v`
applies only when the stored version equals `v`, in which case the stored
version becomes exactly `v + 1`, `updated_at` is stamped with the current
time, and the new document is returned; on a version mismatch it fails with a
version-conflict error and the store is unchanged; when no summary exists it
auto-creates the document at version `v + 1` (not at version 1),
distinguishing the NotFound case (auto-create, normal return) from the
VersionConflict case (error raised). -/
theorem C1_compareAndSwap_amended (store : SummaryStore) (s : DisasterSummary)
    (v : Nat) (now : Nat) :
    (∀ s0, store = some s0 → s0.version = v →
        SummaryRepository.update store s (some v) now
          = (some (casDoc s v now), Except.ok (casDoc s v now)))
  ∧ (∀ s0, store = some s0 → s0.version ≠ v →
        SummaryRepository.update store s (some v) now
          = (store, Except.error { expected := v, found := s0.version }))
  ∧ (store = none →
        SummaryRepository.update store s (some v) now
          = (some (casDoc s v now), Except.ok (casDoc s v now)))
  ∧ (casDoc s v now).version = v + 1
  ∧ (casDoc s v now).updated_at = now := by
  refine ⟨?_, ?_, ?_, rfl, rfl⟩
  · rintro s0 rfl hv
    simp [SummaryRepository.update, casDoc, hv]
  · rintro s0 rfl hv
    simp [SummaryRepository.update, casDoc, hv]
  · rintro rfl
    rfl

/-- Claim C1 witness: the amended theorem applied at a concrete stored
document of version 5, a concrete write and a concrete clock. -/
theorem C1_witness :
    SummaryRepository.update (some { ({} : DisasterSummary) with version := 5 })
        { ({} : DisasterSummary) with narrative_summary := "x" } (some 5) 7
      = (some (casDoc { ({} : DisasterSummary) with narrative_summary := "x" } 5 7),
         Except.ok (casDoc { ({} : DisasterSummary) with narrative_summary := "x" } 5 7)) :=
  (C1_compareAndSwap_amended (some { ({} : DisasterSummary) with version := 5 })
      { ({} : DisasterSummary) with narrative_summary := "x" } 5 7).1
    { ({} : DisasterSummary) with version := 5 } rfl rfl


/-- Claim C4: whenever the decoded extraction response is malformed JSON or
carries an unrecognized `disaster_type` or `severity` value (fences having
been stripped before decoding), `extract_info` returns normally with the
degraded `ExtractedInfo`: `confidence = 0.0` and `additional_notes`
containing the 500-character-bounded prefix of the raw response. -/
theorem C4_extract_parse_failure_degraded
    (loads : String → Option RawExtraction) (response : String) (now : Nat)
    (h : parse_json_response loads response = none
       ∨ ∃ d, parse_json_response loads response = some d
           ∧ ((∃ s, d.disaster_type = some s ∧ DisasterType.ofString s = none)
            ∨ (∃ s, d.severity = some s ∧ SeverityLevel.ofString s = none))) :
    extract_info loads response now = degradedInfo response now
  ∧ (degradedInfo response now).confidence = 0
  ∧ (degradedInfo response now).additional_notes
      = some ("Extraction failed: " ++ response.take 500)
  ∧ (response.take 500).length ≤ 500
  ∧ response.take 500 ++ response.drop 500 = response := by
  refine ⟨?_, rfl, rfl, ?_, ?_⟩
  · rcases h with hnone | ⟨d, hparse, hbad⟩
    · simp [extract_info, hnone]
    · rcases hbad with ⟨s, hs, hofs⟩ | ⟨s, hs, hofs⟩
      · simp [extract_info, hparse, enumField, hs, hofs]
      · rcases hdt : enumField DisasterType.ofString DisasterType.unknown
            d.disaster_type with _ | dtv
        · simp only [extract_info, hparse, hdt]
        · simp only [extract_info, hparse, hdt]
          simp [enumField, hs, hofs]
  · rw [← String.length_data, String.data_take]
    have := List.length_take 500 response.data
    omega
  · apply String.ext
    simp [String.data_append, String.data_take, String.data_drop]

/-- Claim C4 witness: the theorem applied to a concrete undecodable
response. -/
theorem C4_witness :
    extract_info (fun _ => none) "not json" 3 = degradedInfo "not json" 3
  ∧ (degradedInfo "not json" 3).confidence = 0
  ∧ (degradedInfo "not json" 3).additional_notes
      = some ("Extraction failed: " ++ "not json".take 500)
  ∧ ("not json".take 500).length ≤ 500
  ∧ "not json".take 500 ++ "not json".drop 500 = "not json" :=
  C4_extract_parse_failure_degraded (fun _ => none) "not json" 3 (Or.inl rfl)

/-- Claim C3 counterexample: for a concrete malformed summarization response
(undecodable JSON) and one caller report, `generate_summary` returns
normally — the current summary with refreshed raw totals — whereas the
claim (the spec contract, modelled by `summarize_specContract`) says the
failure is propagated to the caller rather than returned normally. -/
theorem C3_counterexample :
    generate_summary [{ person_id := "c1", extracted_info := some {} }]
        { ({} : DisasterSummary) with narrative_summary := "old", version := 3 }
        none 9
      = { ({} : DisasterSummary) with
            narrative_summary := "old",
            version := 3,
            total_callers := 1,
            active_callers := 1 }
  ∧ summarize_specContract [{ person_id := "c1", extracted_info := some {} }]
        { ({} : DisasterSummary) with narrative_summary := "old", version := 3 }
        none 9
      = Except.error () :=
  ⟨rfl, rfl⟩

/-- Claim C3 (amended): when the summarization response fails to parse —
undecodable JSON (`parsed = none`) or a decoded document whose enum values
are unrecognized or whose area lacks its required key
(`buildSummary ... = none`) — and at least one caller report exists,
`generate_summary` does not propagate the failure: it returns normally the
previous summary in which exactly the raw numeric totals (caller counts and
injury/fatality/trapped sums) are refreshed from the current records set;
narrative fields, key findings, severity, version and `updated_at` are
untouched.  Saving that result through the store's compare-and-swap at the
observed version then stores the previous summary with only the refreshed
totals, the version bumped by one and `updated_at` stamped. -/
theorem C3_summarize_parse_failure_amended (persons : List PersonRecord)
    (current : DisasterSummary) (parsed : Option SummaryData) (now : Nat)
    (h : ∃ p ∈ persons, p.extracted_info.isSome = true)
    (hfail : parsed = none
      ∨ ∃ d, parsed = some d
          ∧ buildSummary current persons.length
              (persons.countP (fun p => p.is_active))
              (summaryTotals persons).1 (summaryTotals persons).2.1
              (summaryTotals persons).2.2 d now = none) :
    generate_summary persons current parsed now = refreshedSummary persons current
  ∧ (refreshedSummary persons current).narrative_summary = current.narrative_summary
  ∧ (refreshedSummary persons current).key_findings = current.key_findings
  ∧ (refreshedSummary persons current).overall_severity = current.overall_severity
  ∧ (refreshedSummary persons current).version = current.version
  ∧ (refreshedSummary persons current).updated_at = current.updated_at
  ∧ SummaryRepository.update (some current) (refreshedSummary persons current)
        (some current.version) now
      = (some { refreshedSummary persons current with
                  version := current.version + 1, updated_at := now },
         Except.ok { refreshedSummary persons current with
                  version := current.version + 1, updated_at := now }) := by
  have hc : persons.countP (fun p => p.extracted_info.isSome) ≠ 0 := by
    obtain ⟨p, hp, hs⟩ := h
    intro h0
    rw [List.countP_eq_zero] at h0
    have hnp := h0 p hp
    simp [hs] at hnp
  refine ⟨?_, rfl, rfl, rfl, rfl, rfl, ?_⟩
  · rcases hfail with hnone | ⟨d, hsome, hb⟩
    · subst hnone
      simp [generate_summary, hc]
    · subst hsome
      simp [generate_summary, hc, hb]
  · simp [SummaryRepository.update]

/-- Claim C3 witness: the amended theorem applied to one concrete caller
report and a decoded summarization document carrying an unrecognized
`overall_severity` enum value. -/
theorem C3_witness :
    generate_summary [{ person_id := "c1", extracted_info := some {} }]
        ({} : DisasterSummary) (some { overall_severity := some "bogus" }) 9
      = refreshedSummary [{ person_id := "c1", extracted_info := some {} }]
          ({} : DisasterSummary) :=
  (C3_summarize_parse_failure_amended
      [{ person_id := "c1", extracted_info := some {} }] ({} : DisasterSummary)
      (some { overall_severity := some "bogus" }) 9
      ⟨{ person_id := "c1", extracted_info := some {} }, by simp, rfl⟩
      (Or.inr ⟨{ overall_severity := some "bogus" }, rfl, rfl⟩)).1

/-- Helper: space-join of a list extended by one more element. -/
theorem spaceJoin_append_last (xs : List String) (y : String) :
    spaceJoin (xs ++ [y])
      = spaceJoin xs ++ (if xs.isEmpty then y else " " ++ y) := by
  cases xs with
  | nil => simp [spaceJoin]
  | cons x ts => simp [spaceJoin, List.foldl_append, String.append_assoc]

/-- Helper: a run of non-final chunks that never fills the buffer appends to
the record and the buffer and fires no trigger. -/
theorem processSeq_no_trigger (size : Nat) (pid : String) (now : Nat) :
    ∀ (cs : List TranscriptChunk) (s : SeqState),
      (∀ c ∈ cs, c.is_final = false) →
      s.buffer.length + cs.length < size →
      processSeq size pid now s cs
        = { record := cs.foldl (fun r c => add_transcript_chunk r c now) s.record,
            buffer := s.buffer ++ cs,
            triggers := s.triggers } := by
  intro cs
  induction cs with
  | nil => intro s _ _; simp [processSeq]
  | cons c rest ih =>
    intro s hfin hlen
    have hc : c.is_final = false := hfin c (List.mem_cons_self c rest)
    have hle : ¬ (size ≤ s.buffer.length + 1) := by
      simp only [List.length_cons] at hlen
      omega
    have hstep : seqStep size pid now s c
        = { record := add_transcript_chunk s.record c now,
            buffer := s.buffer ++ [c],
            triggers := s.triggers } := by
      simp [seqStep, process_transcript_chunk, hc, hle]
    have hsplit : processSeq size pid now s (c :: rest)
        = processSeq size pid now (seqStep size pid now s c) rest := rfl
    rw [hsplit, hstep,
      ih _ (fun d hd => hfin d (List.mem_cons_of_mem _ hd))
        (by simp only [List.length_append, List.length_cons,
              List.length_nil] at hlen ⊢; omega)]
    simp

/-- Claim C5: for a caller with a registered connection, processing a
`transcript_chunk` triggers extraction exactly when the chunk is final or
the buffer after the append has reached `buffer_size`; on a trigger the
buffer is cleared; a final chunk triggers even with a single buffered
chunk; and a run of exactly `buffer_size` non-final chunks from an empty
buffer triggers exactly once, leaving the buffer empty. -/
theorem C5_trigger_policy (size : Nat) (record : PersonRecord)
    (buf : List TranscriptChunk) (chunk : TranscriptChunk) (pid : String)
    (now : Nat) (cs : List TranscriptChunk)
    (hfin : ∀ c ∈ cs, c.is_final = false)
    (hlen : cs.length = size) (hsize : 1 ≤ size) :
    ((process_transcript_chunk size (some record) pid (some buf) chunk now).triggered
        = true ↔ (chunk.is_final = true ∨ size ≤ buf.length + 1))
  ∧ ((process_transcript_chunk size (some record) pid (some buf) chunk now).triggered
        = true →
      (process_transcript_chunk size (some record) pid (some buf) chunk now).buffer
        = some [])
  ∧ (chunk.is_final = true →
      (process_transcript_chunk size (some record) pid (some []) chunk now).triggered
        = true)
  ∧ (processSeq size pid now ⟨record, [], 0⟩ cs).triggers = 1
  ∧ (processSeq size pid now ⟨record, [], 0⟩ cs).buffer = [] := by
  have hne : cs ≠ [] := by
    intro h0
    rw [h0] at hlen
    simp at hlen
    omega
  have hmain : (processSeq size pid now ⟨record, [], 0⟩ cs).triggers = 1
      ∧ (processSeq size pid now ⟨record, [], 0⟩ cs).buffer = [] := by
    rcases List.eq_nil_or_concat cs with h0 | ⟨ys, y, hcs⟩
    · exact absurd h0 hne
    rw [List.concat_eq_append] at hcs
    subst hcs
    have hylen : ys.length + 1 = size := by simpa using hlen
    have hfin2 : ∀ c ∈ ys, c.is_final = false := fun c hc => hfin c (by simp [hc])
    have hy : y.is_final = false := hfin y (by simp)
    have hrun := processSeq_no_trigger size pid now ys ⟨record, [], 0⟩ hfin2
      (by simp; omega)
    have hsplit : processSeq size pid now ⟨record, [], 0⟩ (ys ++ [y])
        = seqStep size pid now (processSeq size pid now ⟨record, [], 0⟩ ys) y := by
      simp [processSeq, List.foldl_append]
    have hfull : size ≤ ys.length + 1 := by omega
    rw [hsplit, hrun]
    simp [seqStep, process_transcript_chunk, hy, hfull]
  refine ⟨?_, ?_, ?_, hmain.1, hmain.2⟩
  · simp [process_transcript_chunk]
  · intro h
    simp only [process_transcript_chunk] at h ⊢
    rw [h]
    simp
  · intro h
    simp [process_transcript_chunk, h]

/-- Claim C5 witness: buffer size 2, two non-final chunks from an empty
buffer trigger exactly once. -/
theorem C5_witness :
    (processSeq 2 "c1" 0 ⟨{ person_id := "c1" }, [], 0⟩
        [{ text := "a", chunk_index := 0 }, { text := "b", chunk_index := 1 }]).triggers
      = 1 :=
  (C5_trigger_policy 2 { person_id := "c1" } [] { text := "a", chunk_index := 0 }
      "c1" 0 [{ text := "a", chunk_index := 0 }, { text := "b", chunk_index := 1 }]
      (by decide) rfl (by decide)).2.2.2.1

/-- Claim C6: processing a chunk appends it to the durable record in arrival
order; whenever a transcript is passed into extraction it is the space-join
of the text of every chunk of the durable record (the entire accumulated
transcript, not just the buffered chunks); and the accumulated transcript
only grows, so later extractions see an extension of earlier text. -/
theorem C6_full_transcript (size : Nat) (record : PersonRecord)
    (conn : Option (List TranscriptChunk)) (chunk : TranscriptChunk)
    (pid : String) (now : Nat) :
    (process_transcript_chunk size (some record) pid conn chunk now).record.transcript_chunks
        = record.transcript_chunks ++ [chunk]
  ∧ (∀ t, (process_transcript_chunk size (some record) pid conn chunk now).transcriptSent
        = some t →
      t = fullTranscript (process_transcript_chunk size (some record) pid conn chunk now).record)
  ∧ (∃ rest,
      fullTranscript (process_transcript_chunk size (some record) pid conn chunk now).record
        = fullTranscript record ++ rest) := by
  refine ⟨?_, ?_, ?_⟩
  · simp [process_transcript_chunk, add_transcript_chunk]
  · intro t h
    simp only [process_transcript_chunk] at h ⊢
    split at h
    · split at h
      · exact absurd h (by simp)
      · exact (Option.some.inj h).symm
    · exact absurd h (by simp)
  · have hrec : (process_transcript_chunk size (some record) pid conn chunk now).record.transcript_chunks
        = record.transcript_chunks ++ [chunk] := by
      simp [process_transcript_chunk, add_transcript_chunk]
    unfold fullTranscript
    rw [hrec, List.map_append]
    simp only [List.map_cons, List.map_nil]
    rw [spaceJoin_append_last]
    exact ⟨_, rfl⟩

/-- Claim C6 witness: a final chunk for a caller whose record already holds
one chunk; the transcript handed to extraction is the join of both stored
chunks. -/
theorem C6_witness :
    "hello fire" = fullTranscript
      (process_transcript_chunk 3
        (some { person_id := "c1",
                transcript_chunks := [{ text := "hello", chunk_index := 0 }] })
        "c1" (some [{ text := "hello", chunk_index := 0 }])
        { text := "fire", chunk_index := 1, is_final := true } 5).record :=
  (C6_full_transcript 3
      { person_id := "c1",
        transcript_chunks := [{ text := "hello", chunk_index := 0 }] }
      (some [{ text := "hello", chunk_index := 0 }])
      { text := "fire", chunk_index := 1, is_final := true } "c1" 5).2.1
    "hello fire" rfl

/-- Claim C10: for a caller with no registered connection, the chunk is
still appended to the durable record, extraction is triggered exactly when
the chunk is final (the buffer-size condition cannot fire), and there is no
buffer afterwards. -/
theorem C10_no_connection_chunk (size : Nat) (record : PersonRecord)
    (pid : String) (chunk : TranscriptChunk) (now : Nat) :
    (process_transcript_chunk size (some record) pid none chunk now).record.transcript_chunks
        = record.transcript_chunks ++ [chunk]
  ∧ (process_transcript_chunk size (some record) pid none chunk now).triggered
        = chunk.is_final
  ∧ (process_transcript_chunk size (some record) pid none chunk now).buffer = none := by
  refine ⟨?_, ?_, ?_⟩
  · simp [process_transcript_chunk, add_transcript_chunk]
  · simp [process_transcript_chunk]
  · simp [process_transcript_chunk]

/-- Helper: every scheduler event preserves the coordinator invariant. -/
theorem coordStep_inv (s : CoordState) (e : CoordEvent) (h : CoordInv s) :
    CoordInv (coordStep s e) := by
  obtain ⟨hlen, hemp⟩ := h
  have htasks : s.tasks = [] ∨ ∃ t, s.tasks = [t] := by
    cases hts : s.tasks with
    | nil => exact Or.inl rfl
    | cons t rest =>
        right
        refine ⟨t, ?_⟩
        have hlen2 := hlen
        rw [hts] at hlen2
        simp only [List.length_cons] at hlen2
        have hrest : rest = [] := List.eq_nil_of_length_eq_zero (by omega)
        rw [hrest]
  have hpOfCons : ∀ t, s.tasks = [t] → s.pending = true := by
    intro t h1
    cases hpp : s.pending with
    | true => rfl
    | false =>
        have h2 := hemp hpp
        rw [h1] at h2
        exact absurd h2 (by simp)
  cases e with
  | call =>
      cases hpp : s.pending with
      | true => simp [coordStep, hpp, CoordInv, hlen, hemp]
      | false =>
          have h0 : s.tasks = [] := hemp hpp
          simp [coordStep, hpp, h0, CoordInv]
  | wake =>
      rcases htasks with h0 | ⟨t, h1⟩
      · simp [coordStep, h0, wakeFirst, CoordInv, hlen, hemp]
      · have hp := hpOfCons t h1
        cases t <;> simp [coordStep, h1, wakeFirst, CoordInv, hp]
  | finish =>
      rcases htasks with h0 | ⟨t, h1⟩
      · simp [coordStep, h0, removeFirst, CoordInv, hlen, hemp]
      · have hp := hpOfCons t h1
        cases t <;> simp [coordStep, h1, removeFirst, CoordInv, hp]
  | cancelSleep =>
      rcases htasks with h0 | ⟨t, h1⟩
      · simp [coordStep, h0, removeFirst, CoordInv, hlen, hemp]
      · have hp := hpOfCons t h1
        cases t <;> simp [coordStep, h1, removeFirst, CoordInv, hp]
  | cancelRecompute =>
      rcases htasks with h0 | ⟨t, h1⟩
      · simp [coordStep, h0, removeFirst, CoordInv, hlen, hemp]
      · have hp := hpOfCons t h1
        cases t <;> simp [coordStep, h1, removeFirst, CoordInv, hp]

/-- Helper: the invariant holds along any run from a state satisfying it. -/
theorem coordRun_inv (es : List CoordEvent) :
    ∀ s : CoordState, CoordInv s → CoordInv (coordRun s es) := by
  induction es with
  | nil => intro s hs; exact hs
  | cons e rest ih =>
      intro s hs
      exact ih (coordStep s e) (coordStep_inv s e hs)

/-- Helper: while the pending flag is set, any number of further calls to
`_schedule_summary_update` leave the state unchanged. -/
theorem coordRun_calls_coalesce (s : CoordState) (hp : s.pending = true) :
    ∀ n : Nat, coordRun s (List.replicate n CoordEvent.call) = s := by
  intro n
  induction n with
  | zero => rfl
  | succ k ih =>
      rw [List.replicate_succ]
      have hstep : coordStep s CoordEvent.call = s := by
        simp [coordStep, hp]
      show coordRun (coordStep s CoordEvent.call) (List.replicate k CoordEvent.call) = s
      rw [hstep, ih]

/-- Claim C2: calls to the debounce scheduler coalesce — once the pending
flag is set every further call returns immediately without changing the
state (no new timer); a window of N >= 1 calls followed by the debounce
expiry and the recompute completion yields exactly one recompute execution
and returns the coordinator to the idle state; and along every event
sequence at most one recompute cycle is in flight. -/
theorem C2_debounce_single_flight (N : Nat) (hN : 1 ≤ N) :
    coordRun initCoord
        (List.replicate N CoordEvent.call ++ [CoordEvent.wake, CoordEvent.finish])
      = { pending := false, tasks := [], executions := 1 }
  ∧ (∀ s : CoordState, s.pending = true → coordStep s CoordEvent.call = s)
  ∧ (∀ es : List CoordEvent, inFlight (coordRun initCoord es) ≤ 1) := by
  refine ⟨?_, ?_, ?_⟩
  · obtain ⟨n, rfl⟩ : ∃ n, N = n + 1 := ⟨N - 1, by omega⟩
    rw [List.replicate_succ, List.cons_append]
    show coordRun (coordStep initCoord CoordEvent.call)
        (List.replicate n CoordEvent.call ++ [CoordEvent.wake, CoordEvent.finish])
      = { pending := false, tasks := [], executions := 1 }
    have hs1 : coordStep initCoord CoordEvent.call
        = { pending := true, tasks := [TaskPhase.sleeping], executions := 0 } := rfl
    rw [hs1]
    have hsplit :
        coordRun { pending := true, tasks := [TaskPhase.sleeping], executions := 0 }
            (List.replicate n CoordEvent.call ++ [CoordEvent.wake, CoordEvent.finish])
          = coordRun
              (coordRun { pending := true, tasks := [TaskPhase.sleeping], executions := 0 }
                (List.replicate n CoordEvent.call))
              [CoordEvent.wake, CoordEvent.finish] := by
      simp [coordRun, List.foldl_append]
    rw [hsplit, coordRun_calls_coalesce _ rfl n]
    rfl
  · intro s hp
    simp [coordStep, hp]
  · intro es
    have hinv := coordRun_inv es initCoord ⟨by simp [initCoord], fun _ => rfl⟩
    have h1 : inFlight (coordRun initCoord es)
        ≤ (coordRun initCoord es).tasks.length := by
      unfold inFlight
      exact List.countP_le_length _
    exact le_trans h1 hinv.1

/-- Claim C2 witness: three calls in one debounce window, then the timer
fires and the recompute completes — exactly one execution. -/
theorem C2_witness :
    coordRun initCoord
        (List.replicate 3 CoordEvent.call ++ [CoordEvent.wake, CoordEvent.finish])
      = { pending := false, tasks := [], executions := 1 } :=
  (C2_debounce_single_flight 3 (by decide)).1

/-- Claim C7 (the code violates it): cancelling the debounce task during
the debounce sleep — an `await` that sits outside the `try`/`finally` in
`_schedule_summary_update` — leaves `_pending_summary_update = true` with
no live continuation, and no later event can ever clear it: the coordinator
is stuck in PendingRecompute forever, contrary to the claim that a
cancelled debounce task still resets the state to Idle. -/
theorem C7_cancel_during_sleep_sticks :
    (coordRun initCoord [CoordEvent.call, CoordEvent.cancelSleep]).pending = true
  ∧ (coordRun initCoord [CoordEvent.call, CoordEvent.cancelSleep]).tasks = []
  ∧ (coordRun initCoord [CoordEvent.call, CoordEvent.cancelSleep]).executions = 0
  ∧ (∀ es, (coordRun (coordRun initCoord [CoordEvent.call, CoordEvent.cancelSleep]) es).pending
        = true) := by
  have hstuck : coordRun initCoord [CoordEvent.call, CoordEvent.cancelSleep]
      = { pending := true, tasks := [], executions := 0 } := rfl
  refine ⟨by rw [hstuck], by rw [hstuck], by rw [hstuck], ?_⟩
  intro es
  rw [hstuck]
  have hfix : ∀ e, coordStep { pending := true, tasks := [], executions := 0 } e
      = { pending := true, tasks := [], executions := 0 } := by
    intro e
    cases e <;> rfl
  have hall : ∀ es2,
      coordRun { pending := true, tasks := [], executions := 0 } es2
        = { pending := true, tasks := [], executions := 0 } := by
    intro es2
    induction es2 with
    | nil => rfl
    | cons e rest ih =>
        show coordRun
            (coordStep { pending := true, tasks := [], executions := 0 } e) rest
          = { pending := true, tasks := [], executions := 0 }
        rw [hfix e, ih]
  rw [hall es]

/-- Helper: looking up a key just written returns the written value. -/
theorem dictGet_dictSet_self (pid : String) (c : Connection) :
    ∀ m : List (String × Connection), dictGet pid (dictSet pid c m) = some c := by
  intro m
  induction m with
  | nil => simp [dictSet, dictGet]
  | cons kv rest ih =>
      obtain ⟨k, v⟩ := kv
      by_cases hk : k = pid
      · simp [dictSet, dictGet, hk]
      · simp [dictSet, dictGet, hk, ih]

/-- Helper: membership in the keys after a dict assignment. -/
theorem dictSet_keys_mem (q pid : String) (c : Connection) :
    ∀ m : List (String × Connection),
      q ∈ (dictSet pid c m).map Prod.fst ↔ q = pid ∨ q ∈ m.map Prod.fst := by
  intro m
  induction m with
  | nil => simp [dictSet]
  | cons kv rest ih =>
      obtain ⟨k, v⟩ := kv
      by_cases hk : k = pid
      · subst hk
        simp [dictSet]
      · simp [dictSet, hk, ih]
        tauto

/-- Helper: dict assignment preserves key distinctness. -/
theorem dictSet_nodup (pid : String) (c : Connection) :
    ∀ m : List (String × Connection),
      (m.map Prod.fst).Nodup → ((dictSet pid c m).map Prod.fst).Nodup := by
  intro m
  induction m with
  | nil => intro _; simp [dictSet]
  | cons kv rest ih =>
      obtain ⟨k, v⟩ := kv
      intro h
      simp only [List.map_cons, List.nodup_cons] at h
      obtain ⟨hk1, hk2⟩ := h
      by_cases hk : k = pid
      · subst hk
        simp [dictSet, List.nodup_cons, hk1, hk2]
      · simp only [dictSet, if_neg hk, List.map_cons, List.nodup_cons]
        refine ⟨?_, ih hk2⟩
        intro hmem
        rcases (dictSet_keys_mem k pid c rest).1 hmem with h1 | h1
        · exact hk h1
        · exact hk1 h1

/-- Helper: removal yields a sublist of the keys. -/
theorem dictRemove_keys_sublist (pid : String) :
    ∀ m : List (String × Connection),
      ((dictRemove pid m).map Prod.fst).Sublist (m.map Prod.fst) := by
  intro m
  induction m with
  | nil => simp [dictRemove]
  | cons kv rest ih =>
      obtain ⟨k, v⟩ := kv
      by_cases hk : k = pid
      · simp only [dictRemove, if_pos hk, List.map_cons]
        exact List.sublist_cons_self _ _
      · simp only [dictRemove, if_neg hk, List.map_cons]
        exact List.Sublist.cons₂ _ ih

/-- Helper: a key that is absent looks up to `none`. -/
theorem dictGet_eq_none_of_not_mem (pid : String) :
    ∀ m : List (String × Connection),
      pid ∉ m.map Prod.fst → dictGet pid m = none := by
  intro m
  induction m with
  | nil => intro _; rfl
  | cons kv rest ih =>
      obtain ⟨k, v⟩ := kv
      intro h
      simp only [List.map_cons, List.mem_cons] at h
      push_neg at h
      have hk : k ≠ pid := fun he => h.1 he.symm
      simp [dictGet, hk, ih h.2]

/-- Helper: with distinct keys, removing a key makes it absent. -/
theorem dictRemove_not_mem_keys (pid : String) :
    ∀ m : List (String × Connection),
      (m.map Prod.fst).Nodup → pid ∉ (dictRemove pid m).map Prod.fst := by
  intro m
  induction m with
  | nil => intro _; simp [dictRemove]
  | cons kv rest ih =>
      obtain ⟨k, v⟩ := kv
      intro h
      simp only [List.map_cons, List.nodup_cons] at h
      by_cases hk : k = pid
      · subst hk
        simp only [dictRemove, if_pos rfl]
        exact h.1
      · intro hmem
        simp only [dictRemove, if_neg hk, List.map_cons, List.mem_cons] at hmem
        rcases hmem with h1 | h1
        · exact hk h1.symm
        · exact ih h.2 h1

/-- Helper: removing an absent key is the identity. -/
theorem dictRemove_of_not_mem (pid : String) :
    ∀ m : List (String × Connection),
      pid ∉ m.map Prod.fst → dictRemove pid m = m := by
  intro m
  induction m with
  | nil => intro _; rfl
  | cons kv rest ih =>
      obtain ⟨k, v⟩ := kv
      intro h
      simp only [List.map_cons, List.mem_cons] at h
      push_neg at h
      have hk : k ≠ pid := fun he => h.1 he.symm
      simp [dictRemove, hk, ih h.2]

/-- Helper: every sequence of registry operations preserves key
distinctness. -/
theorem applyOps_nodup (ops : List RegistryOp) :
    ∀ m : List (String × Connection),
      (m.map Prod.fst).Nodup → ((applyOps m ops).map Prod.fst).Nodup := by
  induction ops with
  | nil => intro m h; exact h
  | cons op rest ih =>
      intro m h
      have hstep : ((applyOp m op).map Prod.fst).Nodup := by
        cases op with
        | connect pid sock now => exact dictSet_nodup pid _ m h
        | disconnect pid => exact List.Nodup.sublist (dictRemove_keys_sublist pid m) h
      exact ih (applyOp m op) hstep

/-- Claim C8: after any sequence of connect/disconnect operations the
registry holds at most one connection per person id; connecting over an
existing connection emits — in order, with the close and the registration
between the lock acquire and release — the close of the old socket with
code 1000 and the "Replaced by new connection" reason, the registration of
the new connection, and after the lock release the
`connection_ack{person_id, status:"connected"}` send on the new socket;
a first connect emits the same sequence without the close; the new
connection is the registered one afterwards; disconnect removes the entry
and is idempotent. -/
theorem C8_connection_registry (m : ConnMap) (pid : String) (sock : Nat)
    (now : Nat) (sendFails : Nat → Bool) (ops : List RegistryOp) :
    keysNodup (applyOps [] ops)
  ∧ (∀ old, dictGet pid m = some old →
      (connect m pid sock now sendFails).2
        = [WsEffect.accepted sock, WsEffect.lockAcquired,
           WsEffect.closed old.socket 1000 "Replaced by new connection",
           WsEffect.registered pid sock, WsEffect.lockReleased,
           WsEffect.sendAttempt sock (OutMessage.connection_ack pid "connected")])
  ∧ (dictGet pid m = none →
      (connect m pid sock now sendFails).2
        = [WsEffect.accepted sock, WsEffect.lockAcquired,
           WsEffect.registered pid sock, WsEffect.lockReleased,
           WsEffect.sendAttempt sock (OutMessage.connection_ack pid "connected")])
  ∧ dictGet pid (connect m pid sock now sendFails).1
      = some { person_id := pid, socket := sock, connected_at := now,
               last_heartbeat := now }
  ∧ (keysNodup m → dictGet pid (disconnect m pid).1 = none)
  ∧ (keysNodup m → (disconnect (disconnect m pid).1 pid).1 = (disconnect m pid).1) := by
  refine ⟨?_, ?_, ?_, ?_, ?_, ?_⟩
  · exact applyOps_nodup ops [] (by simp)
  · intro old hold
    simp [connect, hold, send_to_person, dictGet_dictSet_self]
  · intro hnone
    simp [connect, hnone, send_to_person, dictGet_dictSet_self]
  · simp [connect, dictGet_dictSet_self]
  · intro h
    exact dictGet_eq_none_of_not_mem pid _ (dictRemove_not_mem_keys pid m h)
  · intro h
    show (dictRemove pid (dictRemove pid m), _).1 = _
    exact dictRemove_of_not_mem pid _ (dictRemove_not_mem_keys pid m h)

/-- Claim C8 witness: the theorem applied to a registry already holding a
connection for the same person — the old socket is closed with the
"replaced" reason before the new registration, and the ack follows. -/
theorem C8_witness :
    (connect [("p", { person_id := "p", socket := 1 })] "p" 2 5
        (fun _ => false)).2
      = [WsEffect.accepted 2, WsEffect.lockAcquired,
         WsEffect.closed 1 1000 "Replaced by new connection",
         WsEffect.registered "p" 2, WsEffect.lockReleased,
         WsEffect.sendAttempt 2 (OutMessage.connection_ack "p" "connected")] :=
  (C8_connection_registry [("p", { person_id := "p", socket := 1 })] "p" 2 5
      (fun _ => false) []).2.1 { person_id := "p", socket := 1 } rfl

/-- Claim C9 (amended): `broadcast` iterates a snapshot of the connection
map — every registered connection receives exactly one send attempt, in
registry order, regardless of other sockets failing; a send failure never
raises and never aborts the loop; the returned count tallies the
successful sends; and the snapshot copy happens WITHOUT acquiring the
registry lock (no lock effect occurs), the copy being atomic in the event
loop because it contains no await. -/
theorem C9_broadcast_amended (msg : OutMessage) (sendFails : Nat → Bool) :
    ∀ m : List (String × Connection),
      (broadcast m msg sendFails).2
          = m.map (fun e => WsEffect.sendAttempt e.2.socket msg)
    ∧ (broadcast m msg sendFails).1
          = m.countP (fun e => !(sendFails e.2.socket))
    ∧ WsEffect.lockAcquired ∉ (broadcast m msg sendFails).2 := by
  intro m
  induction m with
  | nil => exact ⟨rfl, rfl, by simp [broadcast, broadcastLoop]⟩
  | cons kv rest ih =>
      obtain ⟨k, c⟩ := kv
      obtain ⟨ih1, ih2, ih3⟩ := ih
      have e1 : (broadcast ((k, c) :: rest) msg sendFails).2
          = ((k, c) :: rest).map (fun e => WsEffect.sendAttempt e.2.socket msg) :=
        congrArg (fun l => WsEffect.sendAttempt c.socket msg :: l) ih1
      refine ⟨e1, ?_, ?_⟩
      · show (if sendFails c.socket then 0 else 1)
            + (broadcast rest msg sendFails).1 = _
        rw [ih2, List.countP_cons]
        cases hf : sendFails c.socket <;> simp [hf, Nat.add_comm]
      · rw [e1]
        intro hmem
        rcases List.mem_map.1 hmem with ⟨e, _, he⟩
        exact absurd he (by simp)

/-- Claim C9 counterexample: a concrete broadcast over two connections of
which the first socket's send fails — the trace shows both sockets are
attempted and one success is counted, but it contains no lock acquisition,
refuting the claim that the snapshot is copied while holding the registry
lock (the embedding emits lock effects exactly where the source enters
`async with self._lock`, and `broadcast` never does). -/
theorem C9_counterexample :
    (broadcast [("a", { person_id := "a", socket := 10 }),
                ("b", { person_id := "b", socket := 20 })]
        (OutMessage.payload "summary") (fun s => s == 10)).2
      = [WsEffect.sendAttempt 10 (OutMessage.payload "summary"),
         WsEffect.sendAttempt 20 (OutMessage.payload "summary")]
  ∧ WsEffect.lockAcquired ∉
      (broadcast [("a", { person_id := "a", socket := 10 }),
                  ("b", { person_id := "b", socket := 20 })]
          (OutMessage.payload "summary") (fun s => s == 10)).2
  ∧ (broadcast [("a", { person_id := "a", socket := 10 }),
                ("b", { person_id := "b", socket := 20 })]
        (OutMessage.payload "summary") (fun s => s == 10)).1 = 1 :=
  ⟨rfl, by decide, rfl⟩
